import Mathlib

/-!
Verification of the RNC lookup service (main.py) and its bulk registry
importer (update_rnc_db.py) against the natural-language specification.

The embedding models Python text as `List Char` (Python strings are
sequences of code points).  HTML documents are modelled abstractly by the
pieces the parser inspects: the informational span text and the rows of
the matching taxpayer-data table, both as extracted by BeautifulSoup with
stripped text.  The SQLite cache table (rnc TEXT PRIMARY KEY, ...) is a
finite map and is modelled as a function from keys to optional rows; SQL
row order is not observable content.  Wall-clock times are seconds as Nat.
-/

/-! ## Character and string primitives shared by both source files -/

/-- Model of Python str.lower restricted to the code points this program
handles: ASCII letters and the Latin-1 uppercase range (192-222 except the
multiplication sign 215), each lowered by adding 32, as Python does. -/
def pyCharLower (c : Char) : Char :=
  if 65 ≤ c.toNat ∧ c.toNat ≤ 90 then Char.ofNat (c.toNat + 32)
  else if 192 ≤ c.toNat ∧ c.toNat ≤ 222 ∧ c.toNat ≠ 215 then Char.ofNat (c.toNat + 32)
  else c

/-- Bool test that `p` is an initial segment of the second list. -/
def startsWithL : List Char → List Char → Bool
  | [], _ => true
  | _ :: _, [] => false
  | p :: ps, c :: cs => p == c && startsWithL ps cs

/-- Model of the Python substring test `pat in s` (empty pattern is in
every string). -/
def containsSub (pat : List Char) : List Char → Bool
  | [] => startsWithL pat []
  | c :: t => startsWithL pat (c :: t) || containsSub pat t

/-- Model of Python str.replace for a single-character pattern, the only
form this program ever uses: every occurrence of the character `a` is
replaced by `rep`, scanning left to right (for a one-character pattern
occurrences cannot overlap, so this is exactly the Python semantics). -/
def replaceC (a : Char) (rep : List Char) : List Char → List Char
  | [] => []
  | c :: cs => (if c = a then rep else [c]) ++ replaceC a rep cs

/-- ASCII whitespace, the characters Python str.strip removes on the data
this program handles. -/
def isSpaceC (c : Char) : Bool :=
  c == ' ' || c == '\t' || c == '\n' || c == '\r' || c == '\x0c' || c == '\x0b'

/-- Model of Python str.strip (both ends). -/
def stripL (s : List Char) : List Char :=
  ((s.dropWhile isSpaceC).reverse.dropWhile isSpaceC).reverse

/-! ## JSON-ish dict values (the Python dicts the service passes around),
with Python insertion-order dict semantics. -/

inductive JVal where
  | jstr : String → JVal
  | jbool : Bool → JVal
  | jnum : Nat → JVal
deriving DecidableEq

abbrev Dict := List (String × JVal)

/-- Python `d[k] = v` on an insertion-ordered dict: overwrite in place if
the key exists, else append. -/
def upsertA {α : Type} (d : List (String × α)) (k : String) (v : α) : List (String × α) :=
  if d.any (fun p => p.1 == k) then d.map (fun p => if p.1 == k then (k, v) else p)
  else d ++ [(k, v)]

/-- Python `d.get(k)`. -/
def lookupA {α : Type} (d : List (String × α)) (k : String) : Option α :=
  (d.find? (fun p => p.1 == k)).map (fun p => p.2)

/-- Python `d[k] = v` on a JSON-valued dict. -/
def dictInsert (d : Dict) (k : String) (v : JVal) : Dict := upsertA d k v

/-- Python `d.get(k)` on a JSON-valued dict. -/
def dictGet (d : Dict) (k : String) : Option JVal := lookupA d k

/-- Python truthiness of `d.get(k)`: None and False and empty strings and 0
are falsy. -/
def truthy : Option JVal → Bool
  | none => false
  | some (.jbool b) => b
  | some (.jstr s) => !s.isEmpty
  | some (.jnum n) => n != 0

/-- Python `d[k] = v` on a string-valued dict (form payloads and hidden
inputs). -/
def upsertS (d : List (String × String)) (k v : String) : List (String × String) :=
  upsertA d k v

/-- Python `d.get(k)` on a string-valued dict. -/
def lookupS (d : List (String × String)) (k : String) : Option String :=
  lookupA d k

/-! ## main.py -/

namespace Main

/-- main.py line 22-23: CACHE_WEEKS = 1; CACHE_DELTA = timedelta(weeks=1),
in seconds. -/
def CACHE_DELTA : Nat := 7 * 24 * 60 * 60

/-- main.py normalize_text: the six literal accent substitutions in source
order (e, o, i, a, u, n), then .lower(). -/
def normalize_text (s : String) : String :=
  ⟨(replaceC 'ñ' ['n'] (replaceC 'ú' ['u'] (replaceC 'á' ['a']
      (replaceC 'í' ['i'] (replaceC 'ó' ['o'] (replaceC 'é' ['e'] s.data)))))).map
    pyCharLower⟩

/-- main.py sanitize_rnc: re.sub(r&#92;D, empty, rnc.strip()); the regex class
is modelled as ASCII decimal digits, which is what the identifiers in play
contain. -/
def sanitize_rnc (s : String) : String :=
  ⟨(stripL s.data).filter Char.isDigit⟩

/-- The page returned by the GET leg, abstracted to what the code reads:
the HTTP status (which the code never checks) and the (name, value)
attribute pairs of each input[type=hidden] in document order. -/
structure FormPage where
  status : Nat
  inputsHidden : List (Option String × Option String)

/-- main.py parse_hidden_inputs: dict comprehension over hidden inputs
keeping those with a name, value defaulting to the empty string. -/
def parse_hidden_inputs (inputsHidden : List (Option String × Option String)) :
    List (String × String) :=
  inputsHidden.foldl
    (fun d p =>
      match p.1 with
      | some name => upsertS d name (p.2.getD "")
      | none => d)
    []

/-- The result page abstracted to what parse_result_table inspects: the
stripped text of span#cphMain_lblInformacion if present, and the stripped
td texts per tr of the table whose id matches dvDatosContribuyentes
(case-insensitively) if such a table is found. -/
structure HtmlDoc where
  infoSpan : Option String
  datosTable : Option (List (List String))

/-- The error dict literal parse_result_table builds on each error path. -/
def errorDict (tipo mensaje : String) : Dict :=
  [("error", .jbool true), ("tipo", .jstr tipo), ("mensaje", .jstr mensaje)]

/-- main.py parse_result_table key derivation for a two-column row:
strip text, drop the colon, slash and space to underscore, then
normalize_text. -/
def fieldKey (txt : String) : String :=
  normalize_text ⟨replaceC ' ' ['_'] (replaceC '/' ['_'] (replaceC ':' [] txt.data))⟩

/-- The data accumulation loop of parse_result_table: every row with
exactly two cells contributes key = fieldKey of the left cell, value = the
right cell text. -/
def tableData (rows : List (List String)) : Dict :=
  rows.foldl
    (fun d tr =>
      match tr with
      | [k, v] => dictInsert d (fieldKey k) (.jstr v)
      | _ => d)
    []

/-- The canonical not-registered phrase from main.py line 138. -/
def phraseNoInscrito : String :=
  "el rnc/cedula consultado no se encuentra inscrito como contribuyente."

/-- main.py parse_result_table. -/
def parse_result_table (doc : HtmlDoc) : Dict :=
  match doc.infoSpan with
  | some txt =>
    let mensaje := normalize_text txt
    if containsSub phraseNoInscrito.data mensaje.data then
      errorDict "rnc_no_encontrado" mensaje
    else
      errorDict "dgii_error" mensaje
  | none =>
    let data := tableData (doc.datosTable.getD [])
    if data.isEmpty then
      errorDict "dgii_error" "Respuesta vacía de DGII"
    else
      data

/-- The rnc_cache SQLite table: a finite map from the rnc key to the
stored JSON profile and its created_at time. -/
abbrev CacheStore := String → Option (Dict × Nat)

/-- main.py get_cached_rnc: absent row is a miss; a row is a hit iff
now - created_at is at most CACHE_DELTA, and a hit returns the stored
profile with cache set to true. -/
def get_cached_rnc (store : CacheStore) (now : Nat) (rnc : String) : Option Dict :=
  match store rnc with
  | none => none
  | some (data, created_at) =>
    if now - created_at ≤ CACHE_DELTA then some (dictInsert data "cache" (.jbool true))
    else none

/-- main.py save_cache: skip empty or error-marked results, otherwise
INSERT OR REPLACE the row, refreshing created_at. -/
def save_cache (store : CacheStore) (now : Nat) (rnc : String) (data : Dict) : CacheStore :=
  if data.isEmpty || truthy (dictGet data "error") then store
  else fun k => if k = rnc then some (data, now) else store k

/-- One row of usage_metrics (the four counters; dates and timestamps are
not part of any claim about a single day). -/
structure MetricsRow where
  total : Nat
  hits : Nat
  misses : Nat
  errors : Nat
deriving DecidableEq

/-- The day row created by INSERT OR IGNORE with its DEFAULT 0 counters. -/
def initRow : MetricsRow := ⟨0, 0, 0, 0⟩

/-- main.py update_metrics: total_requests + 1, cache_hits + (1 if hit),
cache_misses + (1 if not hit), errors + (1 if error). -/
def update_metrics (cache_hit err : Bool) (row : MetricsRow) : MetricsRow :=
  { total := row.total + 1
    hits := row.hits + (if cache_hit then 1 else 0)
    misses := row.misses + (if cache_hit then 0 else 1)
    errors := row.errors + (if err then 1 else 0) }

/-- The metrics row after a day of outcomes, oldest first. -/
def runDay (evs : List (Bool × Bool)) : MetricsRow :=
  evs.foldl (fun r e => update_metrics e.1 e.2 r) initRow

/-- The observable effects of one consulta_rnc call: the POST form payload
and the parsed dict with rnc_consultado attached (the cache = False line
is commented out in the source). -/
structure FetchTrace where
  payload : List (String × String)
  posted : Bool
  result : Dict

/-- main.py consulta_rnc: build the payload from the hidden fields of the
GET page plus the search box and button fields, POST it unconditionally
(the code checks neither the GET status nor whether any hidden field was
found), and parse the POST response. -/
def consulta_rnc (page : FormPage) (postDoc : HtmlDoc) (rnc_value : String) : FetchTrace :=
  let hidden := parse_hidden_inputs page.inputsHidden
  let payload := upsertS (upsertS hidden "ctl00$cphMain$txtRNCCedula" rnc_value)
      "ctl00$cphMain$btnBuscarPorRNC" "BUSCAR"
  { payload := payload
    posted := true
    result := dictInsert (parse_result_table postDoc) "rnc_consultado" (.jstr rnc_value) }

/-- The observable outcome of one GET /api/consulta request. -/
structure LookupOutcome where
  status : Nat
  body : Dict
  posted : Bool
  postedValue : Option String
  store : CacheStore
  metric : Bool × Bool

/-- main.py consulta_get: sanitize the identifier, try the cache, on miss
run consulta_rnc against the upstream (abstracted by `page` and
`postDoc`), classify via the error and tipo keys, cache only the success
result, and report exactly one metrics event.  `metric` is the
(cache_hit, error) pair passed to update_metrics. -/
def consulta_get (store : CacheStore) (now : Nat) (raw : String)
    (page : FormPage) (postDoc : HtmlDoc) : LookupOutcome :=
  let rnc := sanitize_rnc raw
  match get_cached_rnc store now rnc with
  | some cached => ⟨200, cached, false, none, store, (true, false)⟩
  | none =>
    let tr := consulta_rnc page postDoc rnc
    let result := tr.result
    if truthy (dictGet result "error") then
      if dictGet result "tipo" = some (.jstr "rnc_no_encontrado") then
        ⟨404, dictInsert result "codigo_http" (.jnum 404), tr.posted, some rnc, store,
          (false, true)⟩
      else
        ⟨503, dictInsert result "codigo_http" (.jnum 503), tr.posted, some rnc, store,
          (false, true)⟩
    else
      ⟨200, result, tr.posted, some rnc, save_cache store now rnc result, (false, false)⟩

end Main

/-! ## update_rnc_db.py -/

namespace UpdateRncDb

/-- update_rnc_db.py normalize_text: empty-guarded str.strip. -/
def normalize_text (s : String) : String :=
  ⟨stripL s.data⟩

/-- One CSV data row mapped by process_csv_and_update_db: rows shorter
than two columns are skipped; otherwise the fixed positional columns
(0 rnc, 1 legal name, 2 economic activity, 4 status, 5 payment regime)
build the ConsultaResponse-shaped JSON payload, with cache = True. -/
def rowToRecord (row : List String) : Option (String × Dict) :=
  if row.length < 2 then none
  else
    let rnc : String := ⟨replaceC '-' [] (stripL (row.getD 0 "").data)⟩
    let nombre := if row.length > 1 then normalize_text (row.getD 1 "") else ""
    let actividad := if row.length > 2 then normalize_text (row.getD 2 "") else ""
    let estado := if row.length > 4 then normalize_text (row.getD 4 "") else ""
    let regimen := if row.length > 5 then normalize_text (row.getD 5 "") else ""
    some (rnc,
      [("cedula_rnc", .jstr rnc),
       ("nombre_razon_social", .jstr nombre),
       ("nombre_comercial", .jstr ""),
       ("categoria", .jstr ""),
       ("regimen_de_pagos", .jstr regimen),
       ("estado", .jstr estado),
       ("actividad_economica", .jstr actividad),
       ("administracion_local", .jstr ""),
       ("facturador_electronico", .jstr ""),
       ("licencias_de_comercializacion_de_vhm", .jstr ""),
       ("rnc_consultado", .jstr rnc),
       ("cache", .jbool true)])

/-- INSERT OR REPLACE INTO rnc_cache on the keyed table. -/
def upsertRecord (store : Main.CacheStore) (now : Nat) (rnc : String) (data : Dict) :
    Main.CacheStore :=
  fun k => if k = rnc then some (data, now) else store k

/-- The CSV processing loop over the data rows (after the heuristic header
skip), with now_iso captured once per run.  The batching into executemany
chunks commits the same upserts to the keyed table and is not modelled
separately. -/
def process_csv (store : Main.CacheStore) (now : Nat) (rows : List (List String)) :
    Main.CacheStore :=
  rows.foldl
    (fun st row =>
      match rowToRecord row with
      | none => st
      | some (rnc, data) => upsertRecord st now rnc data)
    store

/-- The last record a rows list yields for key `k`, if any. -/
def lastRecord (rows : List (List String)) (k : String) : Option Dict :=
  rows.foldl
    (fun acc row =>
      match rowToRecord row with
      | some (rnc, d) => if rnc = k then some d else acc
      | none => acc)
    none

/-- The filesystem facts the cleanup claim is about: whether temp_rnc.zip
is on disk and which extracted files are. -/
structure FsState where
  zipOnDisk : Bool
  files : List String
deriving DecidableEq

/-- The environment of one importer run: how wget behaves (whether
launching it raises, whether it leaves an output file, its return code),
whether the archive passes the zipfile header check, the archive member
names, and the (name, size) of the csv files the fallback directory scan
would find after a generic unzip. -/
structure DlEnv where
  wgetRaises : Bool
  wgetCreates : Bool
  wgetCode : Nat
  zipValid : Bool
  members : List String
  dirCsvs : List (String × Nat)

/-- Python name.lower() on a file name. -/
def lowerStr (s : String) : String := ⟨s.data.map pyCharLower⟩

/-- Bool test that `suf` ends the list. -/
def endsWithL (suf s : List Char) : Bool := startsWithL suf.reverse s.reverse

/-- The member filter: name.lower().endswith(.txt) or name.lower().endswith(.csv). -/
def isTxtOrCsv (name : String) : Bool :=
  endsWithL ".txt".data (lowerStr name).data || endsWithL ".csv".data (lowerStr name).data

/-- The fallback directory filter: f.lower().endswith(.csv) and "arg" not in f. -/
def isFallbackCsv (f : String) : Bool :=
  endsWithL ".csv".data (lowerStr f).data && !containsSub "arg".data f.data

/-- Python max(found, key=getsize): the first element of maximal size. -/
def pickLargest : List (String × Nat) → Option String
  | [] => none
  | x :: xs => some (xs.foldl (fun b y => if y.2 > b.2 then y else b) x).1

/-- update_rnc_db.py download_and_extract_zip.  Removes a pre-existing
temp_rnc.zip, runs wget (which leaves its output file behind on a
non-zero exit), and then: on a valid archive extracts the first .txt/.csv
member and removes the archive (returning None and leaving the archive on
disk when no such member exists); on a failed header check runs a generic
unzip and returns the largest csv the directory scan finds, never removing
the archive on that branch. -/
def download_and_extract_zip (env : DlEnv) (fs : FsState) : FsState × Option String :=
  let fs := { fs with zipOnDisk := false }
  if env.wgetRaises then (fs, none)
  else
    let fs := { fs with zipOnDisk := env.wgetCreates }
    if env.wgetCode ≠ 0 then (fs, none)
    else if env.zipValid then
      match env.members.find? isTxtOrCsv with
      | none => (fs, none)
      | some target =>
        ({ zipOnDisk := false, files := fs.files ++ [target] }, some target)
    else
      let fs := { fs with files := fs.files ++ env.dirCsvs.map (fun p => p.1) }
      (fs, pickLargest (env.dirCsvs.filter (fun p => isFallbackCsv p.1)))

/-- update_rnc_db.py process_csv_and_update_db: returns immediately when
the file does not exist; otherwise processes the rows and removes the file
in the finally clause (os.remove models as dropping every entry with that
name). -/
def process_csv_and_update_db (store : Main.CacheStore) (now : Nat)
    (content : List (List String)) (fs : FsState) (filename : String) :
    Main.CacheStore × FsState :=
  if filename ∈ fs.files then
    (process_csv store now content, { fs with files := fs.files.filter (fun f => f ≠ filename) })
  else (store, fs)

/-- The main block of update_rnc_db.py: download and extract, then process
the extracted file when one was obtained. -/
def run_update (env : DlEnv) (store : Main.CacheStore) (now : Nat)
    (content : List (List String)) : Main.CacheStore × FsState :=
  match download_and_extract_zip env ⟨false, []⟩ with
  | (fs, some f) => process_csv_and_update_db store now content fs f
  | (fs, none) => (store, fs)

end UpdateRncDb

/-! ## Spec-side definitions, following the wording of the specification,
used to compare the source functions against the claims. -/

/-- The accent substitution table of the spec (Spanish diacritics to their
base letters), as a per-character function. -/
def foldChar (c : Char) : Char :=
  if c = 'é' then 'e'
  else if c = 'ó' then 'o'
  else if c = 'í' then 'i'
  else if c = 'á' then 'a'
  else if c = 'ú' then 'u'
  else if c = 'ñ' then 'n'
  else c

/-- Case/accent folding as claim C1 words it (any case and any accents):
lowercase first, then strip diacritics, so accented characters fold
regardless of their case. -/
def claimFold (s : String) : String :=
  ⟨s.data.map (fun c => foldChar (pyCharLower c))⟩

/-- The field-key derivation as claim C6 words it: accent-folding,
lowercasing, and replacing each colon, slash and space character with an
underscore. -/
def claimFieldKey (s : String) : String :=
  ⟨s.data.map (fun c =>
    if c = ':' ∨ c = '/' ∨ c = ' ' then '_' else pyCharLower (foldChar c))⟩

/-- The field-key derivation the code actually performs, described
per character: drop each colon, replace each slash and space with an
underscore, then accent-fold (the lowercase diacritics) and lowercase. -/
def specFieldKey (s : String) : String :=
  ⟨((s.data.filter (fun c => c ≠ ':')).map
      (fun c => if c = '/' then '_' else if c = ' ' then '_' else c)).map
    (fun c => pyCharLower (foldChar c))⟩

/-- The two-column rows of a parsed table, as (left cell, right cell)
pairs. -/
def twoColRows (rows : List (List String)) : List (String × String) :=
  rows.filterMap (fun tr =>
    match tr with
    | [k, v] => some (k, v)
    | _ => none)

/-! ## Helper lemmas -/

theorem replaceC_single (a b : Char) (s : List Char) :
    replaceC a [b] s = s.map (fun c => if c = a then b else c) := by
  induction s with
  | nil => rfl
  | cons c cs ih =>
    by_cases h : c = a
    · simp [replaceC, h, ih]
    · simp [replaceC, h, ih]

theorem replaceC_del (a : Char) (s : List Char) :
    replaceC a [] s = s.filter (fun c => c ≠ a) := by
  induction s with
  | nil => rfl
  | cons c cs ih =>
    by_cases h : c = a
    · simp [replaceC, h, ih]
    · simp [replaceC, h, ih]

theorem any_key_false {α : Type} (d : List (String × α)) (k : String) :
    d.any (fun p => p.1 == k) = false ↔ k ∉ d.map (fun p => p.1) := by
  induction d with
  | nil => simp
  | cons p ps ih =>
    simp only [List.any_cons, Bool.or_eq_false_iff, List.map_cons, List.mem_cons, ih]
    constructor
    · rintro ⟨h1, h2⟩ (h | h)
      · exact absurd (beq_iff_eq.mpr h.symm) (by simp [h1])
      · exact h2 h
    · intro h
      refine ⟨?_, fun hm => h (Or.inr hm)⟩
      by_contra hb
      exact h (Or.inl (beq_iff_eq.mp (by simpa using hb)).symm)

theorem find?_replaceMap {α : Type} (d : List (String × α)) (k k' : String) (v : α) :
    List.find? (fun p => p.1 == k') (d.map (fun p => if p.1 == k then (k, v) else p)) =
      if k' = k then (List.find? (fun p => p.1 == k) d).map (fun _ => (k, v))
      else List.find? (fun p => p.1 == k') d := by
  induction d with
  | nil => by_cases h : k' = k <;> simp [h]
  | cons p ps ih =>
    by_cases hp : p.1 = k
    · by_cases h : k' = k
      · subst h
        rw [List.map_cons, if_pos (by simpa using hp)]
        rw [List.find?_cons_of_pos _ (by simp)]
        rw [List.find?_cons_of_pos _ (by simpa using hp)]
        rw [if_pos rfl]
        rfl
      · rw [List.map_cons, if_pos (by simpa using hp)]
        rw [List.find?_cons_of_neg _ (by simpa using Ne.symm h)]
        rw [ih, if_neg h, if_neg h]
        rw [List.find?_cons_of_neg _
          (by simp only [beq_iff_eq]; simp only [hp]; exact Ne.symm h)]
    · rw [List.map_cons, if_neg (by simpa using hp)]
      by_cases hk' : p.1 = k'
      · have hne : k' ≠ k := fun hkk => hp (hk'.trans hkk)
        rw [List.find?_cons_of_pos _ (by simpa using hk')]
        rw [if_neg hne, List.find?_cons_of_pos _ (by simpa using hk')]
      · rw [List.find?_cons_of_neg _ (by simpa using hk')]
        by_cases h : k' = k
        · rw [ih, if_pos h, if_pos h]
          subst h
          rw [List.find?_cons_of_neg _ (by simpa using hp)]
        · rw [ih, if_neg h, if_neg h, List.find?_cons_of_neg _ (by simpa using hk')]

theorem lookupA_upsertA_self {α : Type} (d : List (String × α)) (k : String) (v : α) :
    lookupA (upsertA d k v) k = some v := by
  unfold upsertA lookupA
  by_cases hc : d.any (fun p => p.1 == k) = true
  · simp only [hc, if_true]
    rw [find?_replaceMap, if_pos rfl]
    rcases List.any_eq_true.1 hc with ⟨p, hp, hpk⟩
    have hsome : (List.find? (fun p => p.1 == k) d).isSome = true :=
      List.find?_isSome.2 ⟨p, hp, hpk⟩
    cases hfd : List.find? (fun p => p.1 == k) d with
    | none => rw [hfd] at hsome; simp at hsome
    | some q => simp
  · rw [if_neg hc]
    rw [List.find?_append]
    have hnone : d.find? (fun p => p.1 == k) = none := by
      rw [List.find?_eq_none]
      exact List.any_eq_false.1 (Bool.eq_false_iff.mpr hc)
    rw [hnone]
    rw [List.find?_cons_of_pos _ (by simp)]
    rfl

theorem lookupA_upsertA_ne {α : Type} (d : List (String × α)) (k k' : String) (v : α)
    (h : k' ≠ k) :
    lookupA (upsertA d k v) k' = lookupA d k' := by
  unfold upsertA lookupA
  by_cases hc : d.any (fun p => p.1 == k) = true
  · simp only [hc, if_true]
    rw [find?_replaceMap, if_neg h]
  · rw [if_neg hc]
    rw [List.find?_append]
    rw [List.find?_cons_of_neg _ (by simpa using Ne.symm h)]
    rw [List.find?_nil]
    cases hfd : d.find? (fun p => p.1 == k') <;> simp

theorem upsertA_fresh {α : Type} (d : List (String × α)) (k : String) (v : α)
    (h : k ∉ d.map (fun p => p.1)) :
    upsertA d k v = d ++ [(k, v)] := by
  unfold upsertA
  have hfalse : d.any (fun p => p.1 == k) = false := (any_key_false d k).2 h
  simp [hfalse]

theorem fieldKeyL (l : List Char) :
    (replaceC 'ñ' ['n'] (replaceC 'ú' ['u'] (replaceC 'á' ['a'] (replaceC 'í' ['i']
        (replaceC 'ó' ['o'] (replaceC 'é' ['e']
          (replaceC ' ' ['_'] (replaceC '/' ['_'] (replaceC ':' [] l))))))))).map
      pyCharLower
    = ((l.filter (fun c => c ≠ ':')).map
          (fun c => if c = '/' then '_' else if c = ' ' then '_' else c)).map
        (fun c => pyCharLower (foldChar c)) := by
  simp only [replaceC_single, replaceC_del]
  induction l with
  | nil => rfl
  | cons c cs ih =>
    by_cases h0 : c = ':'
    · subst h0
      rw [List.filter_cons_of_neg (by simp)]
      exact ih
    · rw [List.filter_cons_of_pos (by simpa using h0)]
      simp only [List.map_cons, List.cons.injEq]
      refine ⟨?_, ih⟩
      by_cases h1 : c = '/'
      · subst h1; decide
      by_cases h2 : c = ' '
      · subst h2; decide
      by_cases h3 : c = 'é'
      · subst h3; decide
      by_cases h4 : c = 'ó'
      · subst h4; decide
      by_cases h5 : c = 'í'
      · subst h5; decide
      by_cases h6 : c = 'á'
      · subst h6; decide
      by_cases h7 : c = 'ú'
      · subst h7; decide
      by_cases h8 : c = 'ñ'
      · subst h8; decide
      simp only [if_neg h1, if_neg h2, if_neg h3, if_neg h4, if_neg h5, if_neg h6, if_neg h7,
        if_neg h8, foldChar]

theorem fieldKey_eq_specFieldKey (s : String) : Main.fieldKey s = specFieldKey s := by
  unfold Main.fieldKey Main.normalize_text specFieldKey
  exact congrArg String.mk (fieldKeyL s.data)

theorem tableData_foldl (rows : List (List String)) : ∀ d : Dict,
    rows.foldl
        (fun d tr =>
          match tr with
          | [k, v] => dictInsert d (Main.fieldKey k) (.jstr v)
          | _ => d)
        d
      = (twoColRows rows).foldl (fun d p => dictInsert d (Main.fieldKey p.1) (.jstr p.2)) d := by
  induction rows with
  | nil => intro d; rfl
  | cons tr rest ih =>
    intro d
    rcases tr with _ | ⟨a, _ | ⟨b, _ | ⟨c, t⟩⟩⟩ <;>
      simp only [twoColRows, List.filterMap_cons, List.foldl_cons] <;>
      exact ih _

theorem tableData_eq_twoCol (rows : List (List String)) :
    Main.tableData rows =
      (twoColRows rows).foldl (fun d p => dictInsert d (Main.fieldKey p.1) (.jstr p.2)) [] := by
  unfold Main.tableData
  exact tableData_foldl rows []

theorem foldIns_length (ps : List (String × String)) : ∀ d : Dict,
    (ps.map (fun p => Main.fieldKey p.1)).Nodup →
    (∀ p ∈ ps, Main.fieldKey p.1 ∉ d.map (fun q => q.1)) →
    (ps.foldl (fun d p => dictInsert d (Main.fieldKey p.1) (.jstr p.2)) d).length
      = d.length + ps.length := by
  induction ps with
  | nil => intro d _ _; simp
  | cons p ps ih =>
    intro d hnd hfresh
    rw [List.foldl_cons]
    have hf : Main.fieldKey p.1 ∉ d.map (fun q => q.1) := hfresh p (List.mem_cons_self _ _)
    have hins : dictInsert d (Main.fieldKey p.1) (.jstr p.2)
        = d ++ [(Main.fieldKey p.1, .jstr p.2)] := upsertA_fresh d _ _ hf
    rw [hins]
    rw [List.map_cons, List.nodup_cons] at hnd
    have hfresh2 : ∀ q ∈ ps,
        Main.fieldKey q.1 ∉ (d ++ [(Main.fieldKey p.1, JVal.jstr p.2)]).map (fun q => q.1) := by
      intro q hq
      simp only [List.map_append, List.map_cons, List.map_nil, List.mem_append,
        List.mem_cons, List.not_mem_nil]
      rintro (hmem | hkey | hfalse)
      · exact hfresh q (List.mem_cons_of_mem _ hq) hmem
      · exact hnd.1 (hkey ▸ List.mem_map_of_mem (fun p => Main.fieldKey p.1) hq)
      · exact hfalse
    rw [ih (d ++ [(Main.fieldKey p.1, JVal.jstr p.2)]) hnd.2 hfresh2]
    simp only [List.length_append, List.length_cons, List.length_nil]
    omega

theorem filter_dropWhile (p q : Char → Bool) (h : ∀ c, q c = true → p c = false) :
    ∀ l : List Char, (l.dropWhile q).filter p = l.filter p := by
  intro l
  induction l with
  | nil => rfl
  | cons c cs ih =>
    by_cases hq : q c = true
    · rw [List.dropWhile_cons_of_pos hq, ih, List.filter_cons_of_neg]
      simp [h c hq]
    · rw [List.dropWhile_cons_of_neg hq]

theorem filter_stripL (p : Char → Bool) (h : ∀ c, isSpaceC c = true → p c = false)
    (l : List Char) :
    (stripL l).filter p = l.filter p := by
  unfold stripL
  rw [List.filter_reverse, filter_dropWhile p isSpaceC h, List.filter_reverse,
    List.reverse_reverse, filter_dropWhile p isSpaceC h]

theorem space_not_digit : ∀ c, isSpaceC c = true → c.isDigit = false := by
  intro c h
  simp only [isSpaceC, Bool.or_eq_true, beq_iff_eq] at h
  rcases h with ((((rfl | rfl) | rfl) | rfl) | rfl) | rfl <;> rfl

theorem sanitize_data (s : String) :
    (Main.sanitize_rnc s).data = s.data.filter Char.isDigit := by
  unfold Main.sanitize_rnc
  exact filter_stripL Char.isDigit space_not_digit s.data

theorem sanitize_idem (s : String) :
    Main.sanitize_rnc (Main.sanitize_rnc s) = Main.sanitize_rnc s := by
  apply String.ext
  rw [sanitize_data, sanitize_data]
  rw [List.filter_filter]
  simp

theorem metrics_total (evs : List (Bool × Bool)) : ∀ r : Main.MetricsRow,
    (evs.foldl (fun r e => Main.update_metrics e.1 e.2 r) r).total = r.total + evs.length := by
  induction evs with
  | nil => intro r; simp
  | cons e es ih =>
    intro r
    rw [List.foldl_cons, ih]
    simp only [Main.update_metrics, List.length_cons]
    omega

theorem metrics_hits_misses (evs : List (Bool × Bool)) : ∀ r : Main.MetricsRow,
    (evs.foldl (fun r e => Main.update_metrics e.1 e.2 r) r).hits
        + (evs.foldl (fun r e => Main.update_metrics e.1 e.2 r) r).misses
      = r.hits + r.misses + evs.length := by
  induction evs with
  | nil => intro r; simp
  | cons e es ih =>
    intro r
    rw [List.foldl_cons, ih]
    rcases e with ⟨hit, err⟩
    cases hit <;> simp [Main.update_metrics] <;> omega

theorem process_csv_append (store : Main.CacheStore) (now : Nat)
    (rows : List (List String)) (row : List String) :
    UpdateRncDb.process_csv store now (rows ++ [row])
      = (match UpdateRncDb.rowToRecord row with
         | none => UpdateRncDb.process_csv store now rows
         | some (rnc, data) =>
           UpdateRncDb.upsertRecord (UpdateRncDb.process_csv store now rows) now rnc data) := by
  unfold UpdateRncDb.process_csv
  rw [List.foldl_append]
  rfl

theorem lastRecord_append (rows : List (List String)) (row : List String) (k : String) :
    UpdateRncDb.lastRecord (rows ++ [row]) k
      = (match UpdateRncDb.rowToRecord row with
         | some (rnc, d) => if rnc = k then some d else UpdateRncDb.lastRecord rows k
         | none => UpdateRncDb.lastRecord rows k) := by
  unfold UpdateRncDb.lastRecord
  rw [List.foldl_append]
  rfl

theorem process_csv_lookup (now : Nat) (rows : List (List String)) :
    ∀ (store : Main.CacheStore) (k : String),
    UpdateRncDb.process_csv store now rows k
      = (match UpdateRncDb.lastRecord rows k with
         | some d => some (d, now)
         | none => store k) := by
  induction rows using List.reverseRecOn with
  | nil => intro store k; rfl
  | append_singleton rows row ih =>
    intro store k
    rw [process_csv_append, lastRecord_append]
    cases hr : UpdateRncDb.rowToRecord row with
    | none => exact ih store k
    | some rd =>
      rcases rd with ⟨rnc, d⟩
      by_cases hk : k = rnc
      · subst hk
        simp [UpdateRncDb.upsertRecord]
      · simp only [UpdateRncDb.upsertRecord, if_neg hk, if_neg (Ne.symm hk)]
        exact ih store k

/-! ## Claim theorems -/

/-- C2: for a cache record created at time T under a sanitized identifier,
a lookup at time now is a hit exactly when now - T ≤ CACHE_DELTA (one
week); a hit returns the stored profile with cache set to true; the record
is a hit at T + TTL - ε and a miss at T + TTL + ε; and a stale record is
treated as absent, so the lookup proceeds to the upstream fetch. -/
theorem C2_cache_freshness (store : Main.CacheStore) (rnc : String) (data : Dict) (T : Nat)
    (hrow : store rnc = some (data, T)) :
    (∀ now, now - T ≤ Main.CACHE_DELTA →
      Main.get_cached_rnc store now rnc = some (dictInsert data "cache" (.jbool true))) ∧
    (∀ now, Main.CACHE_DELTA < now - T → Main.get_cached_rnc store now rnc = none) ∧
    (∀ ε, 0 < ε → ε ≤ Main.CACHE_DELTA →
      Main.get_cached_rnc store (T + Main.CACHE_DELTA - ε) rnc
          = some (dictInsert data "cache" (.jbool true)) ∧
      Main.get_cached_rnc store (T + Main.CACHE_DELTA + ε) rnc = none) ∧
    (∀ now raw page postDoc, Main.sanitize_rnc raw = rnc → Main.CACHE_DELTA < now - T →
      (Main.consulta_get store now raw page postDoc).posted = true) := by
  have hhit : ∀ now, now - T ≤ Main.CACHE_DELTA →
      Main.get_cached_rnc store now rnc = some (dictInsert data "cache" (.jbool true)) := by
    intro now h
    simp only [Main.get_cached_rnc, hrow]
    rw [if_pos h]
  have hmiss : ∀ now, Main.CACHE_DELTA < now - T →
      Main.get_cached_rnc store now rnc = none := by
    intro now h
    simp only [Main.get_cached_rnc, hrow]
    rw [if_neg (by omega)]
  refine ⟨hhit, hmiss, ?_, ?_⟩
  · intro ε h1 h2
    exact ⟨hhit _ (by omega), hmiss _ (by omega)⟩
  · intro now raw page postDoc hs hstale
    have hnone : Main.get_cached_rnc store now (Main.sanitize_rnc raw) = none := by
      rw [hs]; exact hmiss now hstale
    simp only [Main.consulta_get, hnone]
    split <;> first | rfl | split <;> rfl

/-- C2 witness: a record created at time 1000 is a hit one second before
the TTL boundary and a miss one second after it. -/
theorem C2_cache_freshness_witness :
    Main.get_cached_rnc
        (fun k => if k = "123" then some ([("estado", .jstr "ACTIVO")], 1000) else none)
        (1000 + Main.CACHE_DELTA - 1) "123"
      = some (dictInsert [("estado", .jstr "ACTIVO")] "cache" (.jbool true)) ∧
    Main.get_cached_rnc
        (fun k => if k = "123" then some ([("estado", .jstr "ACTIVO")], 1000) else none)
        (1000 + Main.CACHE_DELTA + 1) "123"
      = none :=
  (C2_cache_freshness
      (fun k => if k = "123" then some ([("estado", .jstr "ACTIVO")], 1000) else none)
      "123" [("estado", .jstr "ACTIVO")] 1000 (by decide)).2.2.1 1 (by decide) (by decide)

/-- C3: a result carrying the error marker is never written to the cache:
save_cache leaves the store unchanged on any error-marked dict, and a
lookup whose parsed upstream result is error-marked leaves the cache store
unchanged. -/
theorem C3_errors_never_cached :
    (∀ (store : Main.CacheStore) (now : Nat) (rnc : String) (data : Dict),
      truthy (dictGet data "error") = true → Main.save_cache store now rnc data = store) ∧
    (∀ (store : Main.CacheStore) (now : Nat) (raw : String) (page : Main.FormPage)
        (postDoc : Main.HtmlDoc),
      truthy (dictGet (Main.parse_result_table postDoc) "error") = true →
      (Main.consulta_get store now raw page postDoc).store = store) := by
  constructor
  · intro store now rnc data h
    unfold Main.save_cache
    rw [if_pos (by rw [h, Bool.or_true])]
  · intro store now raw page postDoc h
    have herr : truthy (dictGet
        (Main.consulta_rnc page postDoc (Main.sanitize_rnc raw)).result "error") = true := by
      show truthy (lookupA (upsertA (Main.parse_result_table postDoc) "rnc_consultado"
        (.jstr (Main.sanitize_rnc raw))) "error") = true
      rw [lookupA_upsertA_ne _ _ _ _ (by decide)]
      exact h
    unfold Main.consulta_get
    cases hca : Main.get_cached_rnc store now (Main.sanitize_rnc raw) with
    | some cached => simp only [hca]
    | none =>
      simp only [hca]
      rw [if_pos herr]
      split <;> rfl

/-- C3 witness: an error dict is not cached, and a lookup whose upstream
page carries an informational span leaves the empty store empty. -/
theorem C3_errors_never_cached_witness :
    Main.save_cache (fun _ => none) 5 "1" [("error", .jbool true)] = (fun _ => none) ∧
    (Main.consulta_get (fun _ => none) 5 "1" ⟨200, []⟩ ⟨some "x", none⟩).store
      = (fun _ => none) :=
  ⟨C3_errors_never_cached.1 (fun _ => none) 5 "1" [("error", .jbool true)] (by decide),
   C3_errors_never_cached.2 (fun _ => none) 5 "1" ⟨200, []⟩ ⟨some "x", none⟩ (by decide)⟩

/-- C9: upserting the same identifier with the same profile twice leaves
the cache store exactly as upserting it once: save_cache is idempotent,
a bulk-import run repeated over the same rows changes nothing, and a
repeated run at a later time equals a single run at that time. -/
theorem C9_idempotent_upsert :
    (∀ (store : Main.CacheStore) (now : Nat) (rnc : String) (data : Dict),
      Main.save_cache (Main.save_cache store now rnc data) now rnc data
        = Main.save_cache store now rnc data) ∧
    (∀ (store : Main.CacheStore) (now : Nat) (rows : List (List String)),
      UpdateRncDb.process_csv (UpdateRncDb.process_csv store now rows) now rows
        = UpdateRncDb.process_csv store now rows) ∧
    (∀ (store : Main.CacheStore) (t1 t2 : Nat) (rows : List (List String)),
      UpdateRncDb.process_csv (UpdateRncDb.process_csv store t1 rows) t2 rows
        = UpdateRncDb.process_csv store t2 rows) := by
  have habsorb : ∀ (store : Main.CacheStore) (t1 t2 : Nat) (rows : List (List String)),
      UpdateRncDb.process_csv (UpdateRncDb.process_csv store t1 rows) t2 rows
        = UpdateRncDb.process_csv store t2 rows := by
    intro store t1 t2 rows
    funext k
    rw [process_csv_lookup, process_csv_lookup, process_csv_lookup]
    cases UpdateRncDb.lastRecord rows k <;> rfl
  refine ⟨?_, fun store now rows => habsorb store now now rows, habsorb⟩
  intro store now rnc data
  unfold Main.save_cache
  by_cases hc : (data.isEmpty || truthy (dictGet data "error")) = true
  · simp [hc]
  · simp only [if_neg hc]
    funext k
    by_cases hk : k = rnc
    · simp [hk]
    · simp [hk]

/-- C8: each consulta_get call reports exactly one (cache_hit, error)
metrics event; over a day of N outcomes total_requests equals N and
cache_hits + cache_misses equals total_requests; appending one outcome
raises total_requests by exactly one, exactly one of cache_hits and
cache_misses by exactly one, and never decreases any of the four
counters. -/
theorem C8_metrics_day :
    (∀ args : List (Main.CacheStore × Nat × String × Main.FormPage × Main.HtmlDoc),
      (Main.runDay (args.map (fun a =>
          (Main.consulta_get a.1 a.2.1 a.2.2.1 a.2.2.2.1 a.2.2.2.2).metric))).total
          = args.length ∧
      (Main.runDay (args.map (fun a =>
          (Main.consulta_get a.1 a.2.1 a.2.2.1 a.2.2.2.1 a.2.2.2.2).metric))).hits
          + (Main.runDay (args.map (fun a =>
              (Main.consulta_get a.1 a.2.1 a.2.2.1 a.2.2.2.1 a.2.2.2.2).metric))).misses
        = (Main.runDay (args.map (fun a =>
            (Main.consulta_get a.1 a.2.1 a.2.2.1 a.2.2.2.1 a.2.2.2.2).metric))).total) ∧
    (∀ (evs : List (Bool × Bool)) (e : Bool × Bool),
      (Main.runDay (evs ++ [e])).total = (Main.runDay evs).total + 1 ∧
      ((Main.runDay (evs ++ [e])).hits = (Main.runDay evs).hits + 1 ∧
          (Main.runDay (evs ++ [e])).misses = (Main.runDay evs).misses
        ∨ (Main.runDay (evs ++ [e])).hits = (Main.runDay evs).hits ∧
          (Main.runDay (evs ++ [e])).misses = (Main.runDay evs).misses + 1) ∧
      (Main.runDay evs).hits ≤ (Main.runDay (evs ++ [e])).hits ∧
      (Main.runDay evs).misses ≤ (Main.runDay (evs ++ [e])).misses ∧
      (Main.runDay evs).errors ≤ (Main.runDay (evs ++ [e])).errors ∧
      (Main.runDay evs).total ≤ (Main.runDay (evs ++ [e])).total) := by
  have hstep : ∀ (evs : List (Bool × Bool)) (e : Bool × Bool),
      Main.runDay (evs ++ [e]) = Main.update_metrics e.1 e.2 (Main.runDay evs) := by
    intro evs e
    unfold Main.runDay
    rw [List.foldl_append]
    rfl
  constructor
  · intro args
    unfold Main.runDay
    refine ⟨?_, ?_⟩
    · rw [metrics_total]
      simp [Main.initRow]
    · rw [metrics_hits_misses, metrics_total]
      simp [Main.initRow]
  · intro evs e
    rw [hstep]
    rcases e with ⟨hit, err⟩
    cases hit <;> cases err <;> simp [Main.update_metrics]

/-- C1 counterexample: this upper-case informational message contains the
canonical phrase under genuine case/accent folding (lowercase first, then
strip accents), yet the parser classifies it as the transient dgii_error
rather than rnc_no_encontrado, because the code substitutes accents before
lowercasing and therefore never folds an uppercase accented character. -/
theorem C1_counterexample :
    containsSub Main.phraseNoInscrito.data
        (claimFold
          "EL RNC/CÉDULA CONSULTADO NO SE ENCUENTRA INSCRITO COMO CONTRIBUYENTE.").data
      = true ∧
    dictGet (Main.parse_result_table
        ⟨some "EL RNC/CÉDULA CONSULTADO NO SE ENCUENTRA INSCRITO COMO CONTRIBUYENTE.", none⟩)
        "tipo"
      = some (.jstr "dgii_error") := by decide

/-- C1 (amended): with an informational span present, the parser returns
the rnc_no_encontrado error exactly when the span text folded by the code
(lowercase-accent substitution first, then lowercasing, so uppercase
accented characters are not folded) contains the canonical phrase, and the
transient dgii_error otherwise; with no span, zero two-column rows or a
missing table give the empty-response dgii_error, and a table with N
two-column rows whose normalized keys are distinct gives the field mapping
with exactly N fields. -/
theorem C1_parse_classification :
    (∀ (txt : String) (tbl : Option (List (List String))),
      containsSub Main.phraseNoInscrito.data (Main.normalize_text txt).data = true →
      Main.parse_result_table ⟨some txt, tbl⟩
        = Main.errorDict "rnc_no_encontrado" (Main.normalize_text txt)) ∧
    (∀ (txt : String) (tbl : Option (List (List String))),
      containsSub Main.phraseNoInscrito.data (Main.normalize_text txt).data = false →
      Main.parse_result_table ⟨some txt, tbl⟩
        = Main.errorDict "dgii_error" (Main.normalize_text txt)) ∧
    (∀ rows : List (List String), twoColRows rows = [] →
      Main.parse_result_table ⟨none, some rows⟩
        = Main.errorDict "dgii_error" "Respuesta vacía de DGII") ∧
    (Main.parse_result_table ⟨none, none⟩
      = Main.errorDict "dgii_error" "Respuesta vacía de DGII") ∧
    (∀ rows : List (List String),
      twoColRows rows ≠ [] →
      ((twoColRows rows).map (fun p => Main.fieldKey p.1)).Nodup →
      Main.parse_result_table ⟨none, some rows⟩ = Main.tableData rows ∧
      (Main.tableData rows).length = (twoColRows rows).length) := by
  refine ⟨?_, ?_, ?_, ?_, ?_⟩
  · intro txt tbl h
    simp only [Main.parse_result_table]
    rw [if_pos h]
  · intro txt tbl h
    simp only [Main.parse_result_table]
    rw [if_neg (by simp [h])]
  · intro rows h
    have hdata : Main.tableData rows = [] := by
      rw [tableData_eq_twoCol, h]
      rfl
    simp [Main.parse_result_table, hdata]
  · rfl
  · intro rows hne hnd
    have hlen : (Main.tableData rows).length = (twoColRows rows).length := by
      rw [tableData_eq_twoCol]
      rw [foldIns_length (twoColRows rows) [] hnd (by intro p hp; simp)]
      simp
    have hnonempty : ¬(Main.tableData rows).isEmpty = true := by
      rw [List.isEmpty_iff]
      intro hnil
      rw [hnil] at hlen
      exact hne (List.length_eq_zero.mp hlen.symm)
    refine ⟨?_, hlen⟩
    simp [Main.parse_result_table, hnonempty]

/-- C1 witness: a lower-case not-registered message is classified
rnc_no_encontrado, and a two-row table parses to its two-field mapping. -/
theorem C1_parse_classification_witness :
    (Main.parse_result_table
        ⟨some "El RNC/Cédula consultado no se encuentra inscrito como contribuyente.", none⟩
      = Main.errorDict "rnc_no_encontrado"
          (Main.normalize_text
            "El RNC/Cédula consultado no se encuentra inscrito como contribuyente.")) ∧
    (Main.parse_result_table
        ⟨none, some [["RNC:", "1312345678"], ["Nombre/Razón Social:", "ACME SRL"]]⟩
      = Main.tableData [["RNC:", "1312345678"], ["Nombre/Razón Social:", "ACME SRL"]] ∧
     (Main.tableData [["RNC:", "1312345678"], ["Nombre/Razón Social:", "ACME SRL"]]).length
      = (twoColRows [["RNC:", "1312345678"], ["Nombre/Razón Social:", "ACME SRL"]]).length) :=
  ⟨C1_parse_classification.1 _ none (by decide),
   C1_parse_classification.2.2.2.2 _ (by decide) (by decide)⟩

/-- C6 counterexample: from the left cell Razón social: the code derives
the key razon_social, whereas replacing the colon with an underscore as
the claim states would give razon_social_ ; the parser therefore does not
implement the claimed colon rule. -/
theorem C6_counterexample :
    Main.parse_result_table ⟨none, some [["Razón social:", "ACME"]]⟩
      = [("razon_social", .jstr "ACME")] ∧
    claimFieldKey "Razón social:" = "razon_social_" ∧
    Main.fieldKey "Razón social:" ≠ claimFieldKey "Razón social:" := by decide

/-- C6 (amended): for every two-column row the parser stores the right
cell text under the key derived from the left cell per character: each
colon is removed, each slash and each space becomes an underscore, and
every character is then accent-folded (the lowercase accented letters)
and lowercased. -/
theorem C6_field_normalization (rows : List (List String)) :
    Main.tableData rows
      = (twoColRows rows).foldl
          (fun d p => dictInsert d (specFieldKey p.1) (.jstr p.2)) [] := by
  rw [tableData_eq_twoCol]
  simp only [fieldKey_eq_specFieldKey]

/-- C7: at this fresh successful lookup the code attaches the queried
identifier under rnc_consultado but no cache key at all, neither in the
returned body nor in the persisted record — the data cache = False line
is commented out in consulta_rnc even though the declared ConsultaResponse
model requires a boolean cache field. -/
theorem C7_cache_flag_missing :
    (Main.consulta_get (fun _ => none) 0 "131-234567-8" ⟨200, []⟩
        ⟨none, some [["RNC:", "1312345678"], ["Nombre/Razón Social:", "ACME SRL"]]⟩).status
      = 200 ∧
    dictGet (Main.consulta_get (fun _ => none) 0 "131-234567-8" ⟨200, []⟩
        ⟨none, some [["RNC:", "1312345678"], ["Nombre/Razón Social:", "ACME SRL"]]⟩).body
        "rnc_consultado"
      = some (.jstr "1312345678") ∧
    dictGet (Main.consulta_get (fun _ => none) 0 "131-234567-8" ⟨200, []⟩
        ⟨none, some [["RNC:", "1312345678"], ["Nombre/Razón Social:", "ACME SRL"]]⟩).body
        "cache"
      = none ∧
    ((Main.consulta_get (fun _ => none) 0 "131-234567-8" ⟨200, []⟩
        ⟨none, some [["RNC:", "1312345678"], ["Nombre/Razón Social:", "ACME SRL"]]⟩).store
          "1312345678").map (fun r => dictGet r.1 "cache")
      = some none := by decide

/-- C4 counterexample: the input abc sanitizes to the empty identifier,
yet the lookup is not rejected as a validation error: the code proceeds
and issues the upstream POST with the empty query value (surfaced here as
the upstream 503). -/
theorem C4_counterexample :
    Main.sanitize_rnc "abc" = "" ∧
    (Main.consulta_get (fun _ => none) 0 "abc" ⟨200, []⟩ ⟨some "algo", none⟩).posted = true ∧
    (Main.consulta_get (fun _ => none) 0 "abc" ⟨200, []⟩ ⟨some "algo", none⟩).postedValue
      = some "" ∧
    (Main.consulta_get (fun _ => none) 0 "abc" ⟨200, []⟩ ⟨some "algo", none⟩).status = 503 := by
  decide

/-- C4 (amended): sanitization keeps exactly the decimal digits of the
input in their original order; every lookup uses only the sanitized
identifier (a lookup on the raw input equals the lookup on its sanitized
form, and the upstream query value, when a query is sent, is the
sanitized identifier); but an identifier that is empty after sanitization
is not rejected: on a cache miss the lookup still proceeds to the
upstream query with the empty value. -/
theorem C4_sanitization :
    (∀ raw : String, (Main.sanitize_rnc raw).data = raw.data.filter Char.isDigit) ∧
    (∀ (store : Main.CacheStore) (now : Nat) (raw : String) (page : Main.FormPage)
        (postDoc : Main.HtmlDoc),
      Main.consulta_get store now raw page postDoc
        = Main.consulta_get store now (Main.sanitize_rnc raw) page postDoc ∧
      ((Main.consulta_get store now raw page postDoc).postedValue = none ∨
        (Main.consulta_get store now raw page postDoc).postedValue
          = some (Main.sanitize_rnc raw)) ∧
      (Main.sanitize_rnc raw = "" → store "" = none →
        (Main.consulta_get store now raw page postDoc).posted = true ∧
        (Main.consulta_get store now raw page postDoc).postedValue = some "")) := by
  refine ⟨sanitize_data, ?_⟩
  intro store now raw page postDoc
  refine ⟨?_, ?_, ?_⟩
  · simp only [Main.consulta_get, sanitize_idem]
  · unfold Main.consulta_get
    cases hca : Main.get_cached_rnc store now (Main.sanitize_rnc raw) with
    | some cached =>
      simp only [hca]
      exact Or.inl (by trivial)
    | none =>
      simp only [hca]
      split
      · split
        · exact Or.inr rfl
        · exact Or.inr rfl
      · exact Or.inr rfl
  · intro hs hstore
    have hnone : Main.get_cached_rnc store now "" = none := by
      simp [Main.get_cached_rnc, hstore]
    unfold Main.consulta_get
    simp only [hs, hnone]
    constructor
    · split
      · split <;> rfl
      · rfl
    · split
      · split <;> rfl
      · rfl

/-- C4 witness: the empty-after-sanitization input abc on an empty cache
proceeds to the upstream query with the empty value. -/
theorem C4_sanitization_witness :
    (Main.consulta_get (fun _ => none) 7 "abc" ⟨200, []⟩ ⟨some "x", none⟩).posted = true ∧
    (Main.consulta_get (fun _ => none) 7 "abc" ⟨200, []⟩ ⟨some "x", none⟩).postedValue
      = some "" :=
  (C4_sanitization.2 (fun _ => none) 7 "abc" ⟨200, []⟩ ⟨some "x", none⟩).2.2 (by decide) rfl

/-- C5 counterexample: with a GET response of status 500 containing no
hidden inputs, the code fails with neither NetworkError nor
MalformedPageError: it extracts the empty hidden mapping and still
proceeds to the POST submission carrying only the two search fields. -/
theorem C5_counterexample :
    Main.parse_hidden_inputs ([] : List (Option String × Option String)) = [] ∧
    (Main.consulta_rnc ⟨500, []⟩ ⟨some "algo", none⟩ "1").posted = true ∧
    (Main.consulta_rnc ⟨500, []⟩ ⟨some "algo", none⟩ "1").payload
      = [("ctl00$cphMain$txtRNCCedula", "1"),
         ("ctl00$cphMain$btnBuscarPorRNC", "BUSCAR")] := by
  decide

/-- C5 (amended): the form-state fetch checks neither the HTTP status nor
whether any hidden field was found; for every GET page the lookup
proceeds to the POST, whose payload is exactly the extracted hidden
mapping with the search box set to the queried identifier and the button
field set to BUSCAR. -/
theorem C5_form_fetch (page : Main.FormPage) (postDoc : Main.HtmlDoc) (rnc : String) :
    (Main.consulta_rnc page postDoc rnc).posted = true ∧
    lookupS (Main.consulta_rnc page postDoc rnc).payload "ctl00$cphMain$btnBuscarPorRNC"
      = some "BUSCAR" ∧
    lookupS (Main.consulta_rnc page postDoc rnc).payload "ctl00$cphMain$txtRNCCedula"
      = some rnc ∧
    (∀ n, n ≠ "ctl00$cphMain$txtRNCCedula" → n ≠ "ctl00$cphMain$btnBuscarPorRNC" →
      lookupS (Main.consulta_rnc page postDoc rnc).payload n
        = lookupS (Main.parse_hidden_inputs page.inputsHidden) n) := by
  refine ⟨rfl, ?_, ?_, ?_⟩
  · exact lookupA_upsertA_self _ _ _
  · show lookupA (upsertA (upsertA (Main.parse_hidden_inputs page.inputsHidden)
      "ctl00$cphMain$txtRNCCedula" rnc) "ctl00$cphMain$btnBuscarPorRNC" "BUSCAR")
      "ctl00$cphMain$txtRNCCedula" = some rnc
    rw [lookupA_upsertA_ne _ _ _ _ (by decide)]
    exact lookupA_upsertA_self _ _ _
  · intro n h1 h2
    show lookupA (upsertA (upsertA (Main.parse_hidden_inputs page.inputsHidden)
      "ctl00$cphMain$txtRNCCedula" rnc) "ctl00$cphMain$btnBuscarPorRNC" "BUSCAR") n
      = lookupA (Main.parse_hidden_inputs page.inputsHidden) n
    rw [lookupA_upsertA_ne _ _ _ _ h2, lookupA_upsertA_ne _ _ _ _ h1]

/-- C5 witness: a hidden field named __VIEWSTATE is forwarded verbatim
into the POST payload. -/
theorem C5_form_fetch_witness :
    lookupS (Main.consulta_rnc ⟨200, [(some "__VIEWSTATE", some "abc")]⟩
        ⟨some "x", none⟩ "42").payload "__VIEWSTATE"
      = lookupS (Main.parse_hidden_inputs [(some "__VIEWSTATE", some "abc")]) "__VIEWSTATE" :=
  (C5_form_fetch ⟨200, [(some "__VIEWSTATE", some "abc")]⟩ ⟨some "x", none⟩ "42").2.2.2
    "__VIEWSTATE" (by decide) (by decide)

/-- C10 counterexample: a run whose download succeeds but whose valid
archive contains no .txt or .csv member returns without extracting
anything and ends with the downloaded archive still on disk, so the
cleanup is not unconditional. -/
theorem C10_counterexample :
    (UpdateRncDb.run_update ⟨false, true, 0, true, ["RNC.pdf"], []⟩
        (fun _ => none) 0 []).2
      = ⟨true, []⟩ := by decide

/-- C10 (amended): the cleanup is partial.  Whenever the extraction stage
hands a file name to the CSV-processing stage, that file is removed by
the end of the run; and on the fully successful path, where wget neither
raises nor fails, the archive passes the header check and contains a
.txt or .csv member, both the archive and the extracted file are gone at
the end.  On the other paths (wget failure, invalid archive, no matching
member) the archive file may remain on disk. -/
theorem C10_cleanup (env : UpdateRncDb.DlEnv) (store : Main.CacheStore) (now : Nat)
    (content : List (List String)) :
    (∀ f, (UpdateRncDb.download_and_extract_zip env ⟨false, []⟩).2 = some f →
      f ∉ (UpdateRncDb.run_update env store now content).2.files) ∧
    (env.wgetRaises = false → env.wgetCode = 0 → env.zipValid = true →
      ∀ t, env.members.find? UpdateRncDb.isTxtOrCsv = some t →
      (UpdateRncDb.run_update env store now content).2.zipOnDisk = false ∧
      (UpdateRncDb.run_update env store now content).2.files = []) := by
  constructor
  · intro f hf
    unfold UpdateRncDb.run_update
    cases hdl : UpdateRncDb.download_and_extract_zip env ⟨false, []⟩ with
    | mk fs fo =>
      rw [hdl] at hf
      simp only at hf
      subst hf
      simp only
      unfold UpdateRncDb.process_csv_and_update_db
      by_cases hmem : f ∈ fs.files
      · rw [if_pos hmem]
        simp [List.mem_filter]
      · rw [if_neg hmem]
        exact hmem
  · intro hr hc hz t hfind
    have hdl : UpdateRncDb.download_and_extract_zip env ⟨false, []⟩
        = (⟨false, [t]⟩, some t) := by
      unfold UpdateRncDb.download_and_extract_zip
      rw [if_neg (by simp [hr])]
      rw [if_neg (by simp [hc])]
      rw [if_pos (by simp [hz]), hfind]
      rfl
    unfold UpdateRncDb.run_update
    rw [hdl]
    simp only
    unfold UpdateRncDb.process_csv_and_update_db
    rw [if_pos (by simp)]
    constructor
    · rfl
    · simp

/-- C10 witness: with a valid archive holding DGII_RNC.TXT, the archive
and the extracted file are both gone at the end of the run. -/
theorem C10_cleanup_witness :
    (UpdateRncDb.run_update ⟨false, true, 0, true, ["DGII_RNC.TXT"], []⟩
        (fun _ => none) 0 []).2.zipOnDisk = false ∧
    (UpdateRncDb.run_update ⟨false, true, 0, true, ["DGII_RNC.TXT"], []⟩
        (fun _ => none) 0 []).2.files = [] :=
  (C10_cleanup ⟨false, true, 0, true, ["DGII_RNC.TXT"], []⟩ (fun _ => none) 0 []).2
    rfl rfl rfl "DGII_RNC.TXT" (by decide)
